import Mathlib

/-!
# dockershocker: idle sweep, wake routing and timeout resolution

A shallow embedding of `main.go`: `getContainerTimeout`, one cycle of
`monitorContainers` and one request through `traefikMiddleware`.

Conventions of the embedding

* `time.Duration` is a signed 64-bit count of nanoseconds: an `Int` kept in
  range by `wrap64` wherever Go arithmetic can overflow.
* `time.Time` is an `Int`: nanoseconds since Go's zero `Time` (January 1 of
  year 1, UTC), which is the value a missing map entry reads as.
* Go maps are lookup functions into `Option`.
* The Docker daemon and the clock are explicit inputs: the listing, the
  outcome of each start or stop call and the clock reading at each use.
-/

namespace DockerShocker

/-! ## Durations and instants -/

/-- Largest `time.Duration`, `1<<63 - 1`. -/
def maxDuration : Int := 2 ^ 63 - 1

/-- Smallest `time.Duration`, `-1 << 63`. -/
def minDuration : Int := -(2 ^ 63)

/-- Two's complement reduction of an integer to int64. -/
def wrap64 (x : Int) : Int := (x + 2 ^ 63) % 2 ^ 64 - 2 ^ 63

/-- Go's `time.Minute`. -/
def Minute : Int := 60 * 1000000000

/-- The zero `time.Time`, read from a map that has no entry for the key. -/
def zeroTime : Int := 0

/-- Go's `t.Sub(u)`: the difference, saturated to the range of a `Duration`. -/
def timeSub (t u : Int) : Int :=
  if t - u > maxDuration then maxDuration
  else if t - u < minDuration then minDuration
  else t - u

/-- Go's `time.Since(t)` when the clock reads `now`. -/
def timeSince (now t : Int) : Int := timeSub now t

/-! ## Constants of `main.go` -/

/-- Line 21: `defaultIdleTimeout = time.Minute * 15`. -/
def defaultIdleTimeout : Int := Minute * 15

/-- Line 22. -/
def autoShutdownLabel : String := "dockershocker.enabled"

/-- Line 23. -/
def idleTimeoutLabel : String := "dockershocker.timeout_minutes"

/-! ## `strconv.Atoi` (Go standard library, 64-bit `int`)

`Atoi` accepts an optional sign followed by one or more ASCII digits, and
rejects a value outside the range of `int`. -/

/-- Value of an ASCII decimal digit, `none` for any other character. -/
def digitValue (ch : Char) : Option Nat :=
  if 48 ≤ ch.toNat ∧ ch.toNat ≤ 57 then some (ch.toNat - 48) else none

/-- The digit loop of `Atoi`: `n = n*10 + int(ch)`, a syntax error on a non-digit. -/
def parseDigits : List Char → Nat → Option Nat
  | [], n => some n
  | ch :: rest, n =>
    match digitValue ch with
    | some d => parseDigits rest (n * 10 + d)
    | none => none

/-- Sign handling and range check of `Atoi` on the characters of the string. -/
def atoiChars : List Char → Option Int
  | [] => none
  | ch :: rest =>
    let neg := decide (ch = '-')
    let digits := if ch = '-' ∨ ch = '+' then rest else ch :: rest
    match digits with
    | [] => none
    | d :: ds =>
      match parseDigits (d :: ds) 0 with
      | none => none
      | some n =>
        let v : Int := if neg then -(n : Int) else (n : Int)
        if -(2 ^ 63) ≤ v ∧ v ≤ 2 ^ 63 - 1 then some v else none

/-- Go's `strconv.Atoi`: `some v` when `err == nil`, `none` otherwise. -/
def Atoi (s : String) : Option Int := atoiChars s.toList

/-! ## Containers -/

/-- One entry of `NetworkSettings.Networks`; a nil `Aliases` slice is `none`. -/
structure EndpointSettings where
  Aliases : Option (List String)

/-- The fields of `types.Container` that `main.go` reads. `Networks` lists the
values of the map `NetworkSettings.Networks` in the order the `range` loop
visits them; the daemon fills `NetworkSettings` and every endpoint of a listed
container, so neither pointer is nil. -/
structure Container where
  ID : String
  State : String
  Labels : String → Option String
  Networks : List EndpointSettings

/-- Lines 225-234. -/
def getContainerTimeout (container : Container) : Int :=
  match container.Labels idleTimeoutLabel with
  | some timeoutVal =>
    match Atoi timeoutVal with
    | some minutes => wrap64 (Minute * minutes)
    | none => defaultIdleTimeout
  | none => defaultIdleTimeout

/-- The guard of lines 154 and 209:
`_, ok := Labels[autoShutdownLabel]; ok && Labels[autoShutdownLabel] == "true"`. -/
def autoShutdownEnabled (container : Container) : Bool :=
  match container.Labels autoShutdownLabel with
  | some v => decide (v = "true")
  | none => false

/-! ## The ledger `lastAccessed` -/

/-- The map `lastAccessed` of line 31. -/
abbrev Ledger := String → Option Int

/-- The read `lastAccessed[id]`: the zero `Time` when there is no entry. -/
def Ledger.read (l : Ledger) (id : String) : Int := (l id).getD zeroTime

/-- The write `lastAccessed[id] = t`. -/
def Ledger.set (l : Ledger) (id : String) (t : Int) : Ledger :=
  fun k => if k = id then some t else l k

/-- The call `delete(lastAccessed, id)`. -/
def Ledger.delete (l : Ledger) (id : String) : Ledger :=
  fun k => if k = id then none else l k

/-! ## One cycle of `monitorContainers` (lines 141-170) -/

/-- What the loop body of lines 153-168 did with one listed container. -/
inductive SweepAction where
  /-- The guard of line 154 is false: nothing is read or called. -/
  | ignored
  /-- The idleness test of line 157 is false. -/
  | keptRunning
  /-- `ContainerStop` was called and returned an error (line 160). -/
  | stopFailed
  /-- `ContainerStop` was called and succeeded; the entry was deleted (line 163). -/
  | stopped
  deriving DecidableEq, Repr

/-- The surroundings of one sweep cycle: the clock reading taken by
`time.Since` and the outcome of `ContainerStop`, for the container at each
position of the listing. -/
structure SweepEnv where
  clock : Nat → Int
  stopSucceeds : Nat → Bool

/-- The loop body, lines 154-167, for one container. -/
def sweepStep (now : Int) (stopOk : Bool) (container : Container) (l : Ledger) :
    Ledger × SweepAction :=
  if autoShutdownEnabled container then
    let timeout := getContainerTimeout container
    if timeSince now (l.read container.ID) > timeout then
      if stopOk then (l.delete container.ID, SweepAction.stopped)
      else (l, SweepAction.stopFailed)
    else (l, SweepAction.keptRunning)
  else (l, SweepAction.ignored)

/-- The loop `for _, container := range containers` of lines 153-168, from
listing position `k` on. Returns the ledger after the loop and, per listed
container in order, its id and what was done with it. -/
def sweepLoop (env : SweepEnv) : Nat → List Container → Ledger →
    Ledger × List (String × SweepAction)
  | _, [], l => (l, [])
  | k, container :: rest, l =>
    let r := sweepStep (env.clock k) (env.stopSucceeds k) container l
    let r2 := sweepLoop env (k + 1) rest r.1
    (r2.1, (container.ID, r.2) :: r2.2)

/-- One iteration of the outer `for` of `monitorContainers`: `listing` is the
result of `ContainerList` (`none` for an error, after which the cycle is
abandoned at line 150). -/
def monitorContainers (env : SweepEnv) (listing : Option (List Container)) (l : Ledger) :
    Ledger × List (String × SweepAction) :=
  match listing with
  | none => (l, [])
  | some containers => sweepLoop env 0 containers l

/-- The ids for which `ContainerStop` was called during a cycle. -/
def stopRequests (log : List (String × SweepAction)) : List String :=
  (log.filter fun e =>
    decide (e.2 = SweepAction.stopped) || decide (e.2 = SweepAction.stopFailed)).map Prod.fst

/-- The ids whose `ContainerStop` call succeeded during a cycle. -/
def succeededStops (log : List (String × SweepAction)) : List String :=
  (log.filter fun e => decide (e.2 = SweepAction.stopped)).map Prod.fst

/-- The ledger `l` with the entries removed of the ids whose `ContainerStop`
call succeeded in `log`, and every other entry as in `l`. -/
def ledgerAfter (l : Ledger) (log : List (String × SweepAction)) : Ledger :=
  fun id => if id ∈ succeededStops log then none else l id

/-! ## One request through `traefikMiddleware` (lines 173-223) -/

/-- What `&container` denotes in `for _, container := range containers`:
one variable reused by every iteration (Go before 1.22), or a fresh variable
per iteration (Go 1.22 and later). The language version is fixed by the
module file, which is not part of the sources. -/
inductive LoopVar where
  | shared
  | perIteration
  deriving DecidableEq, Repr

/-- Lines 190-195: the loop over the aliases of one network. The third
argument and the result are what `targetContainer` points to. -/
def aliasLoop (host : String) (container : Container) :
    List String → Option Container → Option Container
  | [], target => target
  | a :: rest, target =>
    if a = host then some container
    else aliasLoop host container rest target

/-- Lines 188-200: the loop over the networks of one container. -/
def networkLoop (host : String) (container : Container) :
    List EndpointSettings → Option Container → Option Container
  | [], target => target
  | network :: rest, target =>
    let target1 :=
      match network.Aliases with
      | some aliases => aliasLoop host container aliases target
      | none => target
    if target1.isSome then target1
    else networkLoop host container rest target1

/-- Lines 187-201: the loop over the listing. With a shared loop variable,
a pointer taken in an earlier iteration sees the value of the current one. -/
def containerLoop (lv : LoopVar) (host : String) :
    List Container → Option Container → Option Container
  | [], target => target
  | container :: rest, target =>
    let target0 :=
      match lv with
      | LoopVar.shared => target.map fun _ => container
      | LoopVar.perIteration => target
    containerLoop lv host rest (networkLoop host container container.Networks target0)

/-- Lines 186-201: `targetContainer` after the search. -/
def findTarget (lv : LoopVar) (containers : List Container) (host : String) :
    Option Container :=
  containerLoop lv host containers none

/-- What one request did: the HTTP status written, the ids passed to
`ContainerStart`, and the ledger afterwards. -/
structure WakeResult where
  status : Nat
  startRequests : List String
  lastAccessed : Ledger

/-- Lines 173-223. `listing` is the result of `ContainerList` (`none` for an
error), `startSucceeds id` the outcome of `ContainerStart` for `id`, `now` the
reading of `time.Now()` at line 220. -/
def traefikMiddleware (lv : LoopVar) (listing : Option (List Container))
    (startSucceeds : String → Bool) (now : Int) (host : String) (l : Ledger) : WakeResult :=
  match listing with
  | none => ⟨500, [], l⟩
  | some containers =>
    match findTarget lv containers host with
    | none => ⟨404, [], l⟩
    | some targetContainer =>
      if targetContainer.State ≠ "running" ∧ autoShutdownEnabled targetContainer = true then
        if startSucceeds targetContainer.ID then
          ⟨303, [targetContainer.ID], l.set targetContainer.ID now⟩
        else
          ⟨500, [targetContainer.ID], l⟩
      else
        ⟨303, [], l.set targetContainer.ID now⟩

/-- Whether `host` is among the network aliases of `container`. -/
def hasAlias (host : String) (container : Container) : Bool :=
  container.Networks.any fun network =>
    match network.Aliases with
    | some aliases => aliases.contains host
    | none => false

/-- The target as the specification words it: the first container, in listing
order, whose alias set contains the requested host. -/
def specFirstMatch (containers : List Container) (host : String) : Option Container :=
  containers.find? (hasAlias host)

/-! ## Sample containers -/

/-- A label map with the given entries. -/
def labelsOf (entries : List (String × String)) : String → Option String :=
  fun k => (entries.find? fun e => e.1 = k).map Prod.snd

/-- A container attached to one network, with the given aliases. -/
def sampleContainer (id state : String) (labels : List (String × String))
    (aliases : List String) : Container :=
  ⟨id, state, labelsOf labels, [⟨some aliases⟩]⟩

/-- A ledger with the given entries. -/
def ledgerOf (entries : List (String × Int)) : Ledger :=
  fun k => (entries.find? fun e => e.1 = k).map Prod.snd

/-- Surroundings in which the clock stands still during the cycle and every
stop call has the same outcome. -/
def steadyEnv (now : Int) (stopOk : Bool) : SweepEnv :=
  ⟨fun _ => now, fun _ => stopOk⟩

/-- Surroundings in which the clock stands still and only the stop call for
the container at listing position 1 succeeds. -/
def secondStopOnly (now : Int) : SweepEnv :=
  ⟨fun _ => now, fun k => decide (k = 1)⟩

/-- A clock reading in the year 2022, in nanoseconds since the zero `Time`. -/
def sampleNow : Int := 63800000000 * 1000000000

/-- Scenario C: marked, no timeout label, running. -/
def scenarioC : Container :=
  sampleContainer "c" "running" [(autoShutdownLabel, "true")] ["c.local"]

/-- Scenario D: marked, timeout label of thirty minutes, running. -/
def scenarioD : Container :=
  sampleContainer "d" "running" [(autoShutdownLabel, "true"), (idleTimeoutLabel, "30")]
    ["d.local"]

/-- A running container without the marker. -/
def unmarkedContainer : Container :=
  sampleContainer "u" "running" [(idleTimeoutLabel, "1")] ["u.local"]

/-- A marked container whose timeout label is zero. -/
def zeroTimeoutContainer : Container :=
  sampleContainer "z" "running" [(autoShutdownLabel, "true"), (idleTimeoutLabel, "0")]
    ["z.local"]

/-- Two stopped, marked containers that declare the same alias. -/
def twinA : Container :=
  sampleContainer "a" "exited" [(autoShutdownLabel, "true")] ["app.local"]

/-- The second of the two containers that declare the same alias. -/
def twinB : Container :=
  sampleContainer "b" "exited" [(autoShutdownLabel, "true")] ["app.local"]

/-- A stopped container without the marker. -/
def unmanagedStopped : Container :=
  sampleContainer "m" "exited" [] ["m.local"]

/-! ## Arithmetic of durations -/

theorem wrap64_range (x : Int) : minDuration ≤ wrap64 x ∧ wrap64 x ≤ maxDuration := by
  unfold wrap64 minDuration maxDuration
  constructor <;> omega

theorem wrap64_of_range (x : Int) (h1 : -(2 ^ 63) ≤ x) (h2 : x ≤ 2 ^ 63 - 1) :
    wrap64 x = x := by
  unfold wrap64
  omega

/-- A whole number of minutes, reduced to 64 bits, is even; `maxDuration` is odd. -/
theorem wrap64_minutes_ne_max (m : Int) : wrap64 (Minute * m) ≠ maxDuration := by
  unfold wrap64 Minute maxDuration
  omega

theorem getContainerTimeout_range (container : Container) :
    minDuration ≤ getContainerTimeout container ∧ getContainerTimeout container < maxDuration := by
  unfold getContainerTimeout
  split
  · split
    · rename_i minutes _
      have h1 := wrap64_range (Minute * minutes)
      have h2 := wrap64_minutes_ne_max minutes
      exact ⟨h1.1, lt_of_le_of_ne h1.2 h2⟩
    · unfold defaultIdleTimeout Minute minDuration maxDuration
      constructor <;> omega
  · unfold defaultIdleTimeout Minute minDuration maxDuration
    constructor <;> omega

theorem getContainerTimeout_of_parsed (container : Container) (s : String) (N : Int)
    (hlabel : container.Labels idleTimeoutLabel = some s) (hparse : Atoi s = some N) :
    getContainerTimeout container = wrap64 (N * 60 * 10 ^ 9) := by
  unfold getContainerTimeout
  rw [hlabel]
  simp only [hparse, Minute]
  congr 1
  ring

/-! ## `Atoi` accepts the decimal numerals -/

theorem digitValue_digitChar (d : Nat) (h : d < 10) : digitValue (Nat.digitChar d) = some d := by
  interval_cases d <;> decide

theorem parseDigits_append (xs ys : List Char) (acc : Nat) :
    parseDigits (xs ++ ys) acc = (parseDigits xs acc).bind (parseDigits ys) := by
  induction xs generalizing acc with
  | nil => simp [parseDigits]
  | cons x xs ih =>
    simp only [List.cons_append, parseDigits]
    cases digitValue x with
    | none => simp
    | some d => simpa using ih _

theorem toDigitsCore_append (fuel n : Nat) (ds : List Char) :
    Nat.toDigitsCore 10 fuel n ds = Nat.toDigitsCore 10 fuel n [] ++ ds := by
  induction fuel generalizing n ds with
  | zero => simp [Nat.toDigitsCore]
  | succ f ih =>
    simp only [Nat.toDigitsCore]
    split
    · simp
    · rw [ih, ih (n / 10) [_]]; simp

theorem parseDigits_toDigitsCore (fuel n : Nat) (h : n < fuel) :
    parseDigits (Nat.toDigitsCore 10 fuel n []) 0 = some n := by
  induction fuel generalizing n with
  | zero => omega
  | succ f ih =>
    simp only [Nat.toDigitsCore]
    split
    · rename_i h0
      have : n < 10 := by omega
      simp [parseDigits, digitValue_digitChar _ (Nat.mod_lt n (by norm_num))]
      omega
    · rename_i h0
      rw [toDigitsCore_append, parseDigits_append, ih (n / 10) (by omega)]
      simp [parseDigits, digitValue_digitChar _ (Nat.mod_lt n (by norm_num))]
      omega

theorem toDigitsCore_ne_nil (fuel n : Nat) (h : 0 < fuel) : Nat.toDigitsCore 10 fuel n [] ≠ [] := by
  cases fuel with
  | zero => omega
  | succ f =>
    simp only [Nat.toDigitsCore]
    split
    · simp
    · rw [toDigitsCore_append]; simp

theorem atoiChars_of_parseDigits (cs : List Char) (n : Nat) (hne : cs ≠ [])
    (hp : parseDigits cs 0 = some n) (h : n < 2 ^ 63) : atoiChars cs = some (n : Int) := by
  cases cs with
  | nil => contradiction
  | cons ch rest =>
    have hd : digitValue ch ≠ none := by
      intro hdv
      simp [parseDigits, hdv] at hp
    have h1 : ch ≠ '-' := by
      rintro rfl
      exact hd (by decide)
    have h2 : ch ≠ '+' := by
      rintro rfl
      exact hd (by decide)
    simp only [atoiChars, h1, h2, or_self, if_false, hp, decide_False]
    have h3 : (-(2 ^ 63) ≤ (n : Int) ∧ (n : Int) ≤ 2 ^ 63 - 1) := by
      constructor <;> omega
    simp only [Bool.false_eq_true, if_false]
    rw [if_pos h3]

theorem Atoi_toString (n : Nat) (h : n < 2 ^ 63) : Atoi (toString n) = some (n : Int) := by
  have h1 : (toString n).toList = Nat.toDigitsCore 10 (n + 1) n [] := by
    simp [toString, Nat.repr, Nat.toDigits, List.asString]
  unfold Atoi
  rw [h1]
  exact atoiChars_of_parseDigits _ n (toDigitsCore_ne_nil _ _ (by omega))
    (parseDigits_toDigitsCore _ _ (by omega)) h


/-! ## Lemmas on the sweep -/

theorem mem_stopRequests (log : List (String × SweepAction)) (id : String) :
    id ∈ stopRequests log ↔
      (id, SweepAction.stopped) ∈ log ∨ (id, SweepAction.stopFailed) ∈ log := by
  unfold stopRequests
  simp only [List.mem_map, List.mem_filter, Bool.or_eq_true, decide_eq_true_eq]
  constructor
  · rintro ⟨⟨id2, a⟩, ⟨hmem, ha⟩, rfl⟩
    rcases ha with ha | ha
    · left; simpa [← ha] using hmem
    · right; simpa [← ha] using hmem
  · rintro (h | h)
    · exact ⟨_, ⟨h, Or.inl rfl⟩, rfl⟩
    · exact ⟨_, ⟨h, Or.inr rfl⟩, rfl⟩

theorem mem_succeededStops (log : List (String × SweepAction)) (id : String) :
    id ∈ succeededStops log ↔ (id, SweepAction.stopped) ∈ log := by
  unfold succeededStops
  simp only [List.mem_map, List.mem_filter, decide_eq_true_eq]
  constructor
  · rintro ⟨⟨id2, a⟩, ⟨hmem, ha⟩, rfl⟩
    simpa [← ha] using hmem
  · intro h
    exact ⟨_, ⟨h, rfl⟩, rfl⟩

theorem Ledger.read_congr (l1 l2 : Ledger) (id : String) (h : l1 id = l2 id) :
    l1.read id = l2.read id := by
  unfold Ledger.read
  rw [h]

/-- The loop body changes the ledger at no key other than the container's id. -/
theorem sweepStep_other (now : Int) (stopOk : Bool) (container : Container) (l : Ledger)
    (id : String) (h : container.ID ≠ id) :
    (sweepStep now stopOk container l).1 id = l id := by
  unfold sweepStep
  split
  · simp only
    split
    · split
      · simp only [Ledger.delete]
        rw [if_neg (Ne.symm h)]
      · rfl
    · rfl
  · rfl

/-- The loop body never creates an entry. -/
theorem sweepStep_none (now : Int) (stopOk : Bool) (container : Container) (l : Ledger)
    (id : String) (h : l id = none) :
    (sweepStep now stopOk container l).1 id = none := by
  unfold sweepStep
  split
  · simp only
    split
    · split
      · simp only [Ledger.delete]
        split
        · rfl
        · exact h
      · exact h
    · exact h
  · exact h

/-- Without the marker the loop body does nothing. -/
theorem sweepStep_unmarked (now : Int) (stopOk : Bool) (container : Container) (l : Ledger)
    (h : autoShutdownEnabled container = false) :
    sweepStep now stopOk container l = (l, SweepAction.ignored) := by
  unfold sweepStep
  simp [h]

/-- Within the timeout the loop body calls nothing and leaves the ledger alone. -/
theorem sweepStep_within (now : Int) (stopOk : Bool) (container : Container) (l : Ledger)
    (h : timeSince now (l.read container.ID) ≤ getContainerTimeout container) :
    (sweepStep now stopOk container l).1 = l ∧
    ((sweepStep now stopOk container l).2 = SweepAction.ignored ∨
      (sweepStep now stopOk container l).2 = SweepAction.keptRunning) := by
  unfold sweepStep
  split
  · simp only
    rw [if_neg (not_lt.mpr h)]
    exact ⟨rfl, Or.inr rfl⟩
  · exact ⟨rfl, Or.inl rfl⟩

/-- Past the timeout, with the marker, the loop body calls `ContainerStop`. -/
theorem sweepStep_idle (now : Int) (stopOk : Bool) (container : Container) (l : Ledger)
    (hm : autoShutdownEnabled container = true)
    (h : timeSince now (l.read container.ID) > getContainerTimeout container) :
    sweepStep now stopOk container l =
      (if stopOk then l.delete container.ID else l,
       if stopOk then SweepAction.stopped else SweepAction.stopFailed) := by
  unfold sweepStep
  simp only [hm, if_true]
  rw [if_pos h]
  cases stopOk <;> rfl

/-- The difference `now - t`, when at most a timeout, bounds `time.Since`. -/
theorem timeSince_le_of_sub_le (now t timeout : Int) (hmin : minDuration ≤ timeout)
    (h : now - t ≤ timeout) : timeSince now t ≤ timeout := by
  unfold timeSince timeSub
  unfold minDuration at hmin
  unfold maxDuration minDuration
  split
  · omega
  · split <;> omega

/-- From year 293 on, `time.Since` of the zero `Time` is the largest duration. -/
theorem timeSince_zeroTime (now : Int) (h : maxDuration ≤ now) :
    timeSince now zeroTime = maxDuration := by
  unfold timeSince timeSub zeroTime
  unfold maxDuration minDuration at *
  split
  · rfl
  · split <;> omega

/-- An id stays untouched by the loop when every listed container carrying it
is left alone by the loop body, whatever the ledger holds elsewhere. -/
theorem sweepLoop_untouched (env : SweepEnv) (id : String) (R : SweepAction → Prop) :
    ∀ (cs : List Container) (k : Nat) (l : Ledger),
    (∀ j c, cs[j]? = some c → c.ID = id → ∀ l2 : Ledger, l2 id = l id →
        (sweepStep (env.clock (k + j)) (env.stopSucceeds (k + j)) c l2).1 = l2 ∧
        R (sweepStep (env.clock (k + j)) (env.stopSucceeds (k + j)) c l2).2) →
    (∀ a, (id, a) ∈ (sweepLoop env k cs l).2 → R a) ∧
    (sweepLoop env k cs l).1 id = l id := by
  intro cs
  induction cs with
  | nil =>
    intro k l _
    simp [sweepLoop]
  | cons c rest ih =>
    intro k l H
    have hstep : (sweepStep (env.clock k) (env.stopSucceeds k) c l).1 id = l id := by
      by_cases hc : c.ID = id
      · have := (H 0 c (by simp) hc l rfl).1
        simp only [Nat.add_zero] at this
        rw [this]
      · exact sweepStep_other _ _ _ _ _ hc
    have H2 : ∀ j c2, rest[j]? = some c2 → c2.ID = id → ∀ l2 : Ledger,
        l2 id = (sweepStep (env.clock k) (env.stopSucceeds k) c l).1 id →
        (sweepStep (env.clock (k + 1 + j)) (env.stopSucceeds (k + 1 + j)) c2 l2).1 = l2 ∧
        R (sweepStep (env.clock (k + 1 + j)) (env.stopSucceeds (k + 1 + j)) c2 l2).2 := by
      intro j c2 hj hc2 l2 hl2
      have := H (j + 1) c2 (by simpa using hj) hc2 l2 (hl2.trans hstep)
      rw [show k + (j + 1) = k + 1 + j by omega] at this
      exact this
    have IH := ih (k + 1) _ H2
    simp only [sweepLoop]
    refine ⟨?_, IH.2.trans hstep⟩
    intro a ha
    rcases List.mem_cons.mp ha with heq | hmem
    · have hc : c.ID = id := (congrArg Prod.fst heq).symm
      have ha2 : a = (sweepStep (env.clock k) (env.stopSucceeds k) c l).2 :=
        congrArg Prod.snd heq
      have := (H 0 c (by simp) hc l rfl).2
      simp only [Nat.add_zero] at this
      rw [ha2]
      exact this
    · exact IH.1 a hmem

/-- The ledger after the loop is the ledger before it without the ids whose
stop succeeded, and the log has one entry per listed container, in order. -/
theorem sweepLoop_frame (env : SweepEnv) :
    ∀ (cs : List Container) (k : Nat) (l : Ledger),
    (sweepLoop env k cs l).1 =
      (fun id => if id ∈ succeededStops (sweepLoop env k cs l).2 then none else l id) ∧
    (sweepLoop env k cs l).2.map Prod.fst = cs.map Container.ID := by
  intro cs
  induction cs with
  | nil =>
    intro k l
    simp [sweepLoop, succeededStops]
  | cons c rest ih =>
    intro k l
    have IH := ih (k + 1) (sweepStep (env.clock k) (env.stopSucceeds k) c l).1
    simp only [sweepLoop, List.map_cons, IH.2, and_true]
    rw [IH.1]
    funext id
    simp only [mem_succeededStops, List.mem_cons, Prod.mk.injEq]
    by_cases hrest : (id, SweepAction.stopped) ∈
        (sweepLoop env (k + 1) rest (sweepStep (env.clock k) (env.stopSucceeds k) c l).1).2
    · simp [hrest]
    · simp only [hrest, if_false, or_false]
      unfold sweepStep
      split
      · simp only
        split
        · split
          · simp only [Ledger.delete, and_true]
          · simp
        · simp
      · simp

/-- The log entry at a position records the id listed there. -/
theorem sweepLoop_log_at (env : SweepEnv) :
    ∀ (cs : List Container) (k : Nat) (l : Ledger) (i : Nat) (c : Container),
    cs[i]? = some c →
    ∃ a, (sweepLoop env k cs l).2[i]? = some (c.ID, a) := by
  intro cs
  induction cs with
  | nil =>
    intro k l i c h
    simp at h
  | cons c0 rest ih =>
    intro k l i c h
    cases i with
    | zero =>
      simp only [List.getElem?_cons_zero, Option.some.injEq] at h
      subst h
      exact ⟨(sweepStep (env.clock k) (env.stopSucceeds k) c0 l).2, by simp [sweepLoop]⟩
    | succ i =>
      simp only [List.getElem?_cons_succ] at h
      obtain ⟨a, ha⟩ := ih (k + 1) (sweepStep (env.clock k) (env.stopSucceeds k) c0 l).1 i c h
      exact ⟨a, by simpa [sweepLoop] using ha⟩

/-- A marked container without an entry is past every timeout. -/
theorem sweepLoop_never_accessed (env : SweepEnv) :
    ∀ (cs : List Container) (k : Nat) (l : Ledger) (i : Nat) (c : Container),
    cs[i]? = some c → autoShutdownEnabled c = true → l c.ID = none →
    maxDuration ≤ env.clock (k + i) →
    (sweepLoop env k cs l).2[i]? =
      some (c.ID, if env.stopSucceeds (k + i) then SweepAction.stopped
                  else SweepAction.stopFailed) := by
  intro cs
  induction cs with
  | nil =>
    intro k l i c h
    simp at h
  | cons c0 rest ih =>
    intro k l i c h hm hl hnow
    cases i with
    | zero =>
      simp only [List.getElem?_cons_zero, Option.some.injEq] at h
      subst h
      simp only [Nat.add_zero] at hnow ⊢
      have hread : l.read c0.ID = zeroTime := by
        unfold Ledger.read
        rw [hl]
        rfl
      have hidle : timeSince (env.clock k) (l.read c0.ID) > getContainerTimeout c0 := by
        rw [hread, timeSince_zeroTime _ hnow]
        exact (getContainerTimeout_range c0).2
      simp only [sweepLoop, List.getElem?_cons_zero, sweepStep_idle _ _ _ _ hm hidle]
    | succ i =>
      simp only [List.getElem?_cons_succ] at h
      have hl2 := sweepStep_none (env.clock k) (env.stopSucceeds k) c0 l c.ID hl
      have := ih (k + 1) _ i c h hm hl2 (by rw [show k + 1 + i = k + (i + 1) by omega]; exact hnow)
      rw [show k + 1 + i = k + (i + 1) by omega] at this
      simpa [sweepLoop] using this


/-- Running the loop body and then removing the stops of a later log is
removing the stops of the log that starts with the body's own entry. -/
theorem ledgerAfter_step (now : Int) (stopOk : Bool) (c : Container) (l : Ledger)
    (rest : List (String × SweepAction)) :
    ledgerAfter (sweepStep now stopOk c l).1 rest =
      ledgerAfter l ((c.ID, (sweepStep now stopOk c l).2) :: rest) := by
  funext id
  unfold ledgerAfter
  simp only [mem_succeededStops, List.mem_cons, Prod.mk.injEq]
  by_cases hrest : (id, SweepAction.stopped) ∈ rest
  · simp [hrest]
  · simp only [hrest, if_false, or_false]
    by_cases hm : autoShutdownEnabled c = true
    · by_cases hi : timeSince now (l.read c.ID) > getContainerTimeout c
      · rw [sweepStep_idle now stopOk c l hm hi]
        cases stopOk
        · simp
        · simp [Ledger.delete]
      · have hw := sweepStep_within now stopOk c l (not_lt.mp hi)
        rw [hw.1]
        rcases hw.2 with h2 | h2 <;> simp [h2]
    · have hu := sweepStep_unmarked now stopOk c l (by simpa using hm)
      rw [hu]
      simp

theorem ledgerAfter_nil (l : Ledger) : ledgerAfter l [] = l := by
  funext id
  simp [ledgerAfter, succeededStops]

/-- The log entry at each position is what the loop body returns for the
container listed there, run on the ledger left by the earlier positions. -/
theorem sweepLoop_entry (env : SweepEnv) :
    ∀ (cs : List Container) (k : Nat) (l : Ledger) (i : Nat) (c : Container),
    cs[i]? = some c →
    (sweepLoop env k cs l).2[i]? =
      some (c.ID,
        (sweepStep (env.clock (k + i)) (env.stopSucceeds (k + i)) c
          (ledgerAfter l ((sweepLoop env k cs l).2.take i))).2) := by
  intro cs
  induction cs with
  | nil =>
    intro k l i c h
    simp at h
  | cons c0 rest ih =>
    intro k l i c h
    cases i with
    | zero =>
      simp only [List.getElem?_cons_zero, Option.some.injEq] at h
      subst h
      simp only [sweepLoop, List.getElem?_cons_zero, List.take_zero, ledgerAfter_nil,
        Nat.add_zero]
    | succ i =>
      simp only [List.getElem?_cons_succ] at h
      have IH := ih (k + 1) (sweepStep (env.clock k) (env.stopSucceeds k) c0 l).1 i c h
      rw [ledgerAfter_step, show k + 1 + i = k + (i + 1) by omega] at IH
      simpa [sweepLoop] using IH

theorem autoShutdownEnabled_eq_false (container : Container)
    (h : container.Labels autoShutdownLabel ≠ some "true") :
    autoShutdownEnabled container = false := by
  unfold autoShutdownEnabled
  split
  · rename_i v hv
    simp only [decide_eq_false_iff_not]
    rintro rfl
    exact h hv
  · rfl

theorem sweepStep_outcome (now : Int) (stopOk : Bool) (container : Container) (l : Ledger) :
    ((sweepStep now stopOk container l).2 = SweepAction.stopped → stopOk = true) ∧
    ((sweepStep now stopOk container l).2 = SweepAction.stopFailed → stopOk = false) := by
  unfold sweepStep
  by_cases hm : autoShutdownEnabled container = true
  · by_cases hi : timeSince now (l.read container.ID) > getContainerTimeout container
    · cases stopOk <;> simp [hm, hi]
    · simp [hm, hi]
  · simp [hm]

/-- The log records `stopped` only where the stop call succeeded, and
`stopFailed` only where it returned an error. -/
theorem sweepLoop_outcome (env : SweepEnv) :
    ∀ (cs : List Container) (k : Nat) (l : Ledger) (i : Nat) (id : String),
    ((sweepLoop env k cs l).2[i]? = some (id, SweepAction.stopped) →
        env.stopSucceeds (k + i) = true) ∧
    ((sweepLoop env k cs l).2[i]? = some (id, SweepAction.stopFailed) →
        env.stopSucceeds (k + i) = false) := by
  intro cs
  induction cs with
  | nil =>
    intro k l i id
    simp [sweepLoop]
  | cons c rest ih =>
    intro k l i id
    cases i with
    | zero =>
      simp only [sweepLoop, List.getElem?_cons_zero, Option.some.injEq, Prod.mk.injEq,
        Nat.add_zero]
      have h := sweepStep_outcome (env.clock k) (env.stopSucceeds k) c l
      exact ⟨fun e => h.1 e.2, fun e => h.2 e.2⟩
    | succ i =>
      have := ih (k + 1) (sweepStep (env.clock k) (env.stopSucceeds k) c l).1 i id
      rw [show k + 1 + i = k + (i + 1) by omega] at this
      simpa [sweepLoop] using this

/-! ## Lemmas on the wake search -/

theorem aliasLoop_no_match (host : String) (container : Container) :
    ∀ (aliases : List String) (target : Option Container),
    host ∉ aliases → aliasLoop host container aliases target = target := by
  intro aliases
  induction aliases with
  | nil =>
    intro target _
    rfl
  | cons a rest ih =>
    intro target h
    simp only [List.mem_cons, not_or] at h
    simp only [aliasLoop]
    rw [if_neg (fun e => h.1 e.symm)]
    exact ih target h.2

theorem networkLoop_no_match (host : String) (container : Container) :
    ∀ (networks : List EndpointSettings),
    (∀ n ∈ networks, ∀ aliases, n.Aliases = some aliases → host ∉ aliases) →
    networkLoop host container networks none = none := by
  intro networks
  induction networks with
  | nil =>
    intro _
    rfl
  | cons n rest ih =>
    intro h
    have h1 : (match n.Aliases with
        | some aliases => aliasLoop host container aliases none
        | none => none) = none := by
      cases hal : n.Aliases with
      | none => rfl
      | some aliases =>
        exact aliasLoop_no_match host container aliases none
          (h n (List.mem_cons_self _ _) aliases hal)
    simp only [networkLoop, h1]
    exact ih (fun m hm => h m (List.mem_cons_of_mem _ hm))

theorem containerLoop_no_match (lv : LoopVar) (host : String) :
    ∀ (containers : List Container),
    (∀ c ∈ containers, ∀ n ∈ c.Networks, ∀ aliases, n.Aliases = some aliases →
        host ∉ aliases) →
    containerLoop lv host containers none = none := by
  intro containers
  induction containers with
  | nil =>
    intro _
    rfl
  | cons c rest ih =>
    intro h
    have h0 : (match lv with
        | LoopVar.shared => (none : Option Container).map fun _ => c
        | LoopVar.perIteration => none) = none := by
      cases lv <;> rfl
    simp only [containerLoop, h0]
    rw [networkLoop_no_match host c c.Networks (h c (List.mem_cons_self _ _))]
    exact ih (fun d hd => h d (List.mem_cons_of_mem _ hd))

/-! ## Timeout resolution -/

/-- C4 (counterexample): the label `"153722868"` is accepted by `Atoi` as the
positive integer 153722868, and `getContainerTimeout` returns a negative
duration for it, not 153722868 minutes. -/
theorem getContainerTimeout_large_minutes_wrap :
    Atoi "153722868" = some 153722868 ∧
    getContainerTimeout
        (sampleContainer "c" "running" [(idleTimeoutLabel, "153722868")] []) =
      -9223371993709551616 ∧
    getContainerTimeout
        (sampleContainer "c" "running" [(idleTimeoutLabel, "153722868")] []) ≠
      153722868 * 60 * 10 ^ 9 := by
  decide

/-- C4 (amended): when the timeout label is accepted by `Atoi` as a positive
integer `N`, `getContainerTimeout` returns `N * 60 * 10^9` nanoseconds reduced
to signed 64 bits; this is exactly `N` minutes when `N ≤ 153722867`, and is
not `N` minutes for any larger `N`. -/
theorem getContainerTimeout_positive_minutes (container : Container) (s : String) (N : Int)
    (hlabel : container.Labels idleTimeoutLabel = some s) (hparse : Atoi s = some N)
    (hpos : 0 < N) :
    getContainerTimeout container = wrap64 (N * 60 * 10 ^ 9) ∧
    (N ≤ 153722867 → getContainerTimeout container = N * 60 * 10 ^ 9) ∧
    (153722867 < N → getContainerTimeout container ≠ N * 60 * 10 ^ 9) := by
  have h := getContainerTimeout_of_parsed container s N hlabel hparse
  refine ⟨h, ?_, ?_⟩
  · intro hN
    rw [h]
    apply wrap64_of_range <;> omega
  · intro hN heq
    have hr := (wrap64_range (N * 60 * 10 ^ 9)).2
    rw [← h, heq] at hr
    unfold maxDuration at hr
    omega

/-- C4 (witness): the label `"30"` gives thirty minutes. -/
theorem getContainerTimeout_positive_minutes_witness :
    Atoi "30" = some 30 ∧
    getContainerTimeout (sampleContainer "d" "running" [(idleTimeoutLabel, "30")] []) =
      30 * 60 * 10 ^ 9 :=
  ⟨by decide,
   (getContainerTimeout_positive_minutes
      (sampleContainer "d" "running" [(idleTimeoutLabel, "30")] []) "30" 30
      (by decide) (by decide) (by decide)).2.1 (by decide)⟩

/-- C5 (counterexample): the labels `"0"` and `"-5"` parse to non-positive
integers, and `getContainerTimeout` returns zero and minus five minutes for
them, not the default of fifteen minutes. -/
theorem getContainerTimeout_nonpositive_not_default :
    getContainerTimeout (sampleContainer "c" "running" [(idleTimeoutLabel, "0")] []) = 0 ∧
    getContainerTimeout (sampleContainer "c" "running" [(idleTimeoutLabel, "-5")] []) =
      -300000000000 ∧
    defaultIdleTimeout = 900000000000 := by
  decide

/-- C5 (amended): `getContainerTimeout` is total; it returns the default of
fifteen minutes when the timeout label is absent or is rejected by `Atoi`;
when the label parses to an integer `N ≤ 0` it returns `N * 60 * 10^9`
nanoseconds reduced to signed 64 bits, which is exactly `N` minutes (zero or
negative) when `-153722867 ≤ N`. -/
theorem getContainerTimeout_default_cases (container : Container) :
    ((container.Labels idleTimeoutLabel = none ∨
        ∃ s, container.Labels idleTimeoutLabel = some s ∧ Atoi s = none) →
      getContainerTimeout container = defaultIdleTimeout ∧
      defaultIdleTimeout = 15 * 60 * 10 ^ 9) ∧
    (∀ s N, container.Labels idleTimeoutLabel = some s → Atoi s = some N → N ≤ 0 →
      getContainerTimeout container = wrap64 (N * 60 * 10 ^ 9) ∧
      (-153722867 ≤ N → getContainerTimeout container = N * 60 * 10 ^ 9)) := by
  constructor
  · intro h
    refine ⟨?_, by decide⟩
    unfold getContainerTimeout
    rcases h with h | ⟨s, hs, hp⟩
    · rw [h]
    · rw [hs]
      simp only [hp]
  · intro s N hlabel hparse hN
    have h := getContainerTimeout_of_parsed container s N hlabel hparse
    refine ⟨h, ?_⟩
    intro hlo
    rw [h]
    apply wrap64_of_range <;> omega

/-- C5 (witness): an absent label, and the label `"abc"`, give the default. -/
theorem getContainerTimeout_default_cases_witness :
    getContainerTimeout (sampleContainer "c" "running" [] []) = defaultIdleTimeout ∧
    getContainerTimeout (sampleContainer "c" "running" [(idleTimeoutLabel, "abc")] []) =
      defaultIdleTimeout :=
  ⟨((getContainerTimeout_default_cases (sampleContainer "c" "running" [] [])).1
      (Or.inl (by decide))).1,
   ((getContainerTimeout_default_cases
      (sampleContainer "c" "running" [(idleTimeoutLabel, "abc")] [])).1
      (Or.inr ⟨"abc", by decide, by decide⟩)).1⟩

/-! ## The idle sweep -/

/-- C1: in one sweep cycle over a listed snapshot, a container listed once
whose time since last access (the clock reading at its test minus its ledger
timestamp) is at most the value `getContainerTimeout` returns for it gets no
stop request, and its ledger entry after the cycle is the one before it. -/
theorem monitorContainers_within_timeout_untouched (env : SweepEnv)
    (containers : List Container) (l : Ledger) (i : Nat) (c : Container)
    (hlisted : containers[i]? = some c)
    (honce : ∀ j d, containers[j]? = some d → d.ID = c.ID → j = i)
    (hfresh : env.clock i - l.read c.ID ≤ getContainerTimeout c) :
    c.ID ∉ stopRequests (monitorContainers env (some containers) l).2 ∧
    (monitorContainers env (some containers) l).1 c.ID = l c.ID := by
  have key := sweepLoop_untouched env c.ID
    (fun a => a = SweepAction.ignored ∨ a = SweepAction.keptRunning) containers 0 l
    (by
      intro j d hj hd l2 hl2
      have hji := honce j d hj hd
      subst hji
      have hdc : d = c := by
        rw [hlisted] at hj
        exact (Option.some.inj hj).symm
      subst hdc
      simp only [Nat.zero_add]
      apply sweepStep_within
      rw [Ledger.read_congr l2 l d.ID hl2]
      exact timeSince_le_of_sub_le _ _ _ (getContainerTimeout_range d).1 hfresh)
  refine ⟨?_, key.2⟩
  intro hmem
  rcases (mem_stopRequests _ _).mp hmem with h | h
  · rcases key.1 _ h with h2 | h2 <;> cases h2
  · rcases key.1 _ h with h2 | h2 <;> cases h2

/-- C1 (witness): scenario D, a timeout of thirty minutes and a last access
twenty minutes ago; the cycle issues no stop and keeps the entry. -/
theorem monitorContainers_within_timeout_untouched_witness :
    "d" ∉ stopRequests
      (monitorContainers (steadyEnv sampleNow true) (some [scenarioD])
        (ledgerOf [("d", sampleNow - 20 * Minute)])).2 ∧
    (monitorContainers (steadyEnv sampleNow true) (some [scenarioD])
        (ledgerOf [("d", sampleNow - 20 * Minute)])).1 "d" =
      some (sampleNow - 20 * Minute) :=
  monitorContainers_within_timeout_untouched (steadyEnv sampleNow true) [scenarioD]
    (ledgerOf [("d", sampleNow - 20 * Minute)]) 0 scenarioD rfl
    (by
      intro j d hj _
      cases j with
      | zero => rfl
      | succ j => simp at hj)
    (by decide)

/-- C2: in one sweep cycle, a container listed once whose label
`dockershocker.enabled` is absent or differs from `"true"` is ignored: no stop
request is issued for it and its ledger entry is left as it was, whatever the
clock, the ledger and its timeout label. -/
theorem monitorContainers_unmarked_untouched (env : SweepEnv)
    (containers : List Container) (l : Ledger) (i : Nat) (c : Container)
    (hlisted : containers[i]? = some c)
    (honce : ∀ j d, containers[j]? = some d → d.ID = c.ID → j = i)
    (hunmarked : c.Labels autoShutdownLabel ≠ some "true") :
    (monitorContainers env (some containers) l).2[i]? = some (c.ID, SweepAction.ignored) ∧
    c.ID ∉ stopRequests (monitorContainers env (some containers) l).2 ∧
    (monitorContainers env (some containers) l).1 c.ID = l c.ID := by
  have key := sweepLoop_untouched env c.ID (fun a => a = SweepAction.ignored) containers 0 l
    (by
      intro j d hj hd l2 _
      have hji := honce j d hj hd
      subst hji
      have hdc : d = c := by
        rw [hlisted] at hj
        exact (Option.some.inj hj).symm
      subst hdc
      rw [sweepStep_unmarked _ _ _ _ (autoShutdownEnabled_eq_false d hunmarked)]
      exact ⟨rfl, rfl⟩)
  refine ⟨?_, ?_, key.2⟩
  · obtain ⟨a, ha⟩ := sweepLoop_log_at env containers 0 l i c hlisted
    have hmem : (c.ID, a) ∈ (sweepLoop env 0 containers l).2 :=
      List.getElem?_mem ha
    have haeq : a = SweepAction.ignored := key.1 a hmem
    rw [haeq] at ha
    exact ha
  · intro hmem
    rcases (mem_stopRequests _ _).mp hmem with h | h
    · cases key.1 _ h
    · cases key.1 _ h

/-- C2 (witness): an unmarked container with a one-minute timeout label and no
ledger entry is ignored. -/
theorem monitorContainers_unmarked_untouched_witness :
    (monitorContainers (steadyEnv sampleNow true) (some [unmarkedContainer])
        (ledgerOf [])).2[0]? = some ("u", SweepAction.ignored) ∧
    "u" ∉ stopRequests
      (monitorContainers (steadyEnv sampleNow true) (some [unmarkedContainer])
        (ledgerOf [])).2 ∧
    (monitorContainers (steadyEnv sampleNow true) (some [unmarkedContainer])
        (ledgerOf [])).1 "u" = none :=
  monitorContainers_unmarked_untouched (steadyEnv sampleNow true) [unmarkedContainer]
    (ledgerOf []) 0 unmarkedContainer rfl
    (by
      intro j d hj _
      cases j with
      | zero => rfl
      | succ j => simp at hj)
    (by decide)

/-- C9: after one sweep cycle over a listed snapshot the ledger is the ledger
before it with exactly the entries removed whose stop call succeeded. Every
listed container is evaluated, whatever the outcome of the earlier stops: its
log entry is what the loop body returns for it on the ledger left by the
earlier positions, so a marked container idle past its timeout there gets a
stop request even after a failed stop. A `stopped` entry occurs only where
`ContainerStop` succeeded and a `stopFailed` entry, which leaves the ledger
untouched, only where it returned an error. -/
theorem monitorContainers_ledger_frame (env : SweepEnv) (containers : List Container)
    (l : Ledger) :
    (monitorContainers env (some containers) l).1 =
      ledgerAfter l (monitorContainers env (some containers) l).2 ∧
    (∀ i c, containers[i]? = some c →
      (monitorContainers env (some containers) l).2[i]? =
        some (c.ID,
          (sweepStep (env.clock i) (env.stopSucceeds i) c
            (ledgerAfter l ((monitorContainers env (some containers) l).2.take i))).2)) ∧
    (∀ i c, containers[i]? = some c → autoShutdownEnabled c = true →
      timeSince (env.clock i)
          ((ledgerAfter l ((monitorContainers env (some containers) l).2.take i)).read c.ID) >
        getContainerTimeout c →
      (monitorContainers env (some containers) l).2[i]? =
        some (c.ID, if env.stopSucceeds i then SweepAction.stopped
                    else SweepAction.stopFailed)) ∧
    (monitorContainers env (some containers) l).2.map Prod.fst =
      containers.map Container.ID ∧
    (∀ i id, (monitorContainers env (some containers) l).2[i]? =
        some (id, SweepAction.stopped) → env.stopSucceeds i = true) ∧
    (∀ i id, (monitorContainers env (some containers) l).2[i]? =
        some (id, SweepAction.stopFailed) → env.stopSucceeds i = false) := by
  have h := sweepLoop_frame env containers 0 l
  have hentry : ∀ i c, containers[i]? = some c →
      (sweepLoop env 0 containers l).2[i]? =
        some (c.ID,
          (sweepStep (env.clock i) (env.stopSucceeds i) c
            (ledgerAfter l ((sweepLoop env 0 containers l).2.take i))).2) := by
    intro i c hc
    have := sweepLoop_entry env containers 0 l i c hc
    simpa using this
  refine ⟨h.1, hentry, ?_, h.2, ?_, ?_⟩
  · intro i c hc hm hidle
    have he := hentry i c hc
    simp only [monitorContainers] at hidle ⊢
    rw [sweepStep_idle _ _ _ _ hm hidle] at he
    exact he
  · intro i id hi
    have := (sweepLoop_outcome env containers 0 l i id).1 hi
    simpa using this
  · intro i id hi
    have := (sweepLoop_outcome env containers 0 l i id).2 hi
    simpa using this

/-- C9 (witness): scenario C, no timeout label and a last access twenty
minutes ago, listed after a container whose stop fails: the failed stop keeps
its entry, and scenario C is still evaluated, stopped, and its entry removed. -/
theorem monitorContainers_ledger_frame_witness :
    (monitorContainers (secondStopOnly sampleNow)
        (some [zeroTimeoutContainer, scenarioC])
        (ledgerOf [("z", sampleNow - Minute), ("c", sampleNow - 20 * Minute)])).2[0]? =
      some ("z", SweepAction.stopFailed) ∧
    (monitorContainers (secondStopOnly sampleNow)
        (some [zeroTimeoutContainer, scenarioC])
        (ledgerOf [("z", sampleNow - Minute), ("c", sampleNow - 20 * Minute)])).2[1]? =
      some ("c", SweepAction.stopped) ∧
    (monitorContainers (secondStopOnly sampleNow)
        (some [zeroTimeoutContainer, scenarioC])
        (ledgerOf [("z", sampleNow - Minute), ("c", sampleNow - 20 * Minute)])).1 "c" =
      none ∧
    (monitorContainers (secondStopOnly sampleNow)
        (some [zeroTimeoutContainer, scenarioC])
        (ledgerOf [("z", sampleNow - Minute), ("c", sampleNow - 20 * Minute)])).1 "z" =
      some (sampleNow - Minute) :=
  have h := monitorContainers_ledger_frame (secondStopOnly sampleNow)
    [zeroTimeoutContainer, scenarioC]
    (ledgerOf [("z", sampleNow - Minute), ("c", sampleNow - 20 * Minute)])
  have hz := h.2.2.1 0 zeroTimeoutContainer rfl (by decide) (by decide)
  have hc := h.2.2.1 1 scenarioC rfl (by decide) (by decide)
  ⟨hz, hc,
   (congrFun h.1 "c").trans
     (if_pos ((mem_succeededStops _ _).mpr (List.getElem?_mem hc))),
   (congrFun h.1 "z").trans (by decide)⟩

/-- C10: a listed container that carries the marker and has no ledger entry
passes the idleness test `time.Since(lastAccessed[id]) > timeout` for every
timeout label, and the cycle calls `ContainerStop` for it, provided the clock
at its test reads at least `maxDuration` past the zero `Time` (the year 293 or
later). -/
theorem monitorContainers_never_accessed_stopped (env : SweepEnv)
    (containers : List Container) (l : Ledger) (i : Nat) (c : Container)
    (hlisted : containers[i]? = some c)
    (hmarked : autoShutdownEnabled c = true)
    (hnone : l c.ID = none)
    (hclock : maxDuration ≤ env.clock i) :
    timeSince (env.clock i) (l.read c.ID) > getContainerTimeout c ∧
    (monitorContainers env (some containers) l).2[i]? =
      some (c.ID, if env.stopSucceeds i then SweepAction.stopped
                  else SweepAction.stopFailed) ∧
    c.ID ∈ stopRequests (monitorContainers env (some containers) l).2 := by
  have hread : l.read c.ID = zeroTime := by
    unfold Ledger.read
    rw [hnone]
    rfl
  have hlog := sweepLoop_never_accessed env containers 0 l i c hlisted hmarked hnone
    (by simpa using hclock)
  simp only [Nat.zero_add] at hlog
  refine ⟨?_, hlog, ?_⟩
  · rw [hread, timeSince_zeroTime _ hclock]
    exact (getContainerTimeout_range c).2
  · have hmem := List.getElem?_mem hlog
    apply (mem_stopRequests _ _).mpr
    cases hs : env.stopSucceeds i
    · right
      simpa [hs] using hmem
    · left
      simpa [hs] using hmem

/-- C10 (witness): a marked container with a timeout label of zero and no
ledger entry is stopped. -/
theorem monitorContainers_never_accessed_stopped_witness :
    timeSince sampleNow ((ledgerOf []).read "z") > getContainerTimeout zeroTimeoutContainer ∧
    (monitorContainers (steadyEnv sampleNow true) (some [zeroTimeoutContainer])
        (ledgerOf [])).2[0]? = some ("z", SweepAction.stopped) ∧
    "z" ∈ stopRequests
      (monitorContainers (steadyEnv sampleNow true) (some [zeroTimeoutContainer])
        (ledgerOf [])).2 :=
  monitorContainers_never_accessed_stopped (steadyEnv sampleNow true)
    [zeroTimeoutContainer] (ledgerOf []) 0 zeroTimeoutContainer rfl (by decide) (by decide)
    (by decide)

/-! ## The wake router -/

/-- C3 (the code at the failing input): two listed containers declare the alias
`app.local`, first `a`, then `b`. Under either meaning of `&container` the
search ends with `targetContainer` at `b`, whose id is the one started and
recorded, while the first container in listing order with the alias is `a`. -/
theorem findTarget_takes_later_match :
    ∀ lv : LoopVar,
      (specFirstMatch [twinA, twinB] "app.local").map Container.ID = some "a" ∧
      (findTarget lv [twinA, twinB] "app.local").map Container.ID = some "b" ∧
      (traefikMiddleware lv (some [twinA, twinB]) (fun _ => true) sampleNow "app.local"
          (ledgerOf [])).startRequests = ["b"] ∧
      (traefikMiddleware lv (some [twinA, twinB]) (fun _ => true) sampleNow "app.local"
          (ledgerOf [])).lastAccessed "b" = some sampleNow ∧
      (traefikMiddleware lv (some [twinA, twinB]) (fun _ => true) sampleNow "app.local"
          (ledgerOf [])).lastAccessed "a" = none := by
  intro lv
  cases lv <;> decide

/-- C6: for a listing in which no container has a network alias equal to the
requested host, `traefikMiddleware` answers 404, calls `ContainerStart` for no
container and leaves the ledger as it was. -/
theorem traefikMiddleware_no_match (lv : LoopVar) (containers : List Container)
    (startSucceeds : String → Bool) (now : Int) (host : String) (l : Ledger)
    (hnomatch : ∀ c ∈ containers, ∀ n ∈ c.Networks, ∀ aliases,
      n.Aliases = some aliases → host ∉ aliases) :
    (traefikMiddleware lv (some containers) startSucceeds now host l).status = 404 ∧
    (traefikMiddleware lv (some containers) startSucceeds now host l).startRequests = [] ∧
    (traefikMiddleware lv (some containers) startSucceeds now host l).lastAccessed = l := by
  have h : findTarget lv containers host = none :=
    containerLoop_no_match lv host containers hnomatch
  simp only [traefikMiddleware, h, and_self]

/-- C6 (witness): no container answers to `other.local`. -/
theorem traefikMiddleware_no_match_witness :
    (traefikMiddleware LoopVar.shared (some [twinA, twinB]) (fun _ => true) sampleNow
        "other.local" (ledgerOf [("a", 5)])).status = 404 ∧
    (traefikMiddleware LoopVar.shared (some [twinA, twinB]) (fun _ => true) sampleNow
        "other.local" (ledgerOf [("a", 5)])).startRequests = [] ∧
    (traefikMiddleware LoopVar.shared (some [twinA, twinB]) (fun _ => true) sampleNow
        "other.local" (ledgerOf [("a", 5)])).lastAccessed = ledgerOf [("a", 5)] :=
  traefikMiddleware_no_match LoopVar.shared [twinA, twinB] (fun _ => true) sampleNow
    "other.local" (ledgerOf [("a", 5)])
    (by
      intro c hc n hn aliases ha
      simp only [List.mem_cons, List.mem_singleton, List.not_mem_nil, or_false] at hc
      rcases hc with rfl | rfl
      · simp only [twinA, sampleContainer, List.mem_singleton] at hn
        subst hn
        cases ha
        decide
      · simp only [twinB, sampleContainer, List.mem_singleton] at hn
        subst hn
        cases ha
        decide)

/-- C7: when the resolved target is not running and carries the marker and
`ContainerStart` fails, `traefikMiddleware` answers 500 and the ledger is the
one before the request; and whenever the answer is not the 303 redirect
(listing failure, no match, start failure) the ledger is unchanged. -/
theorem traefikMiddleware_failure_keeps_ledger (lv : LoopVar)
    (listing : Option (List Container)) (startSucceeds : String → Bool) (now : Int)
    (host : String) (l : Ledger) :
    (∀ containers target, listing = some containers →
      findTarget lv containers host = some target →
      target.State ≠ "running" → autoShutdownEnabled target = true →
      startSucceeds target.ID = false →
      (traefikMiddleware lv listing startSucceeds now host l).status = 500 ∧
      (traefikMiddleware lv listing startSucceeds now host l).lastAccessed = l) ∧
    (listing = none →
      (traefikMiddleware lv listing startSucceeds now host l).status = 500 ∧
      (traefikMiddleware lv listing startSucceeds now host l).lastAccessed = l) ∧
    ((traefikMiddleware lv listing startSucceeds now host l).status ≠ 303 →
      (traefikMiddleware lv listing startSucceeds now host l).lastAccessed = l) := by
  refine ⟨?_, ?_, ?_⟩
  · intro containers target hl ht hs hm hf
    subst hl
    simp only [traefikMiddleware, ht]
    rw [if_pos ⟨hs, hm⟩]
    simp only [hf, Bool.false_eq_true, if_false, and_self]
  · intro hl
    subst hl
    exact ⟨rfl, rfl⟩
  · intro hstatus
    unfold traefikMiddleware at hstatus ⊢
    cases listing with
    | none => rfl
    | some containers =>
      simp only at hstatus ⊢
      cases ht : findTarget lv containers host with
      | none => rfl
      | some target =>
        simp only [ht] at hstatus ⊢
        split_ifs at hstatus ⊢ <;> first | rfl | exact absurd rfl hstatus

/-- C7 (witness): the start of the stopped, marked container `a` fails. -/
theorem traefikMiddleware_failure_keeps_ledger_witness :
    (traefikMiddleware LoopVar.perIteration (some [twinA]) (fun _ => false) sampleNow
        "app.local" (ledgerOf [("a", 5)])).status = 500 ∧
    (traefikMiddleware LoopVar.perIteration (some [twinA]) (fun _ => false) sampleNow
        "app.local" (ledgerOf [("a", 5)])).lastAccessed = ledgerOf [("a", 5)] :=
  (traefikMiddleware_failure_keeps_ledger LoopVar.perIteration (some [twinA])
      (fun _ => false) sampleNow "app.local" (ledgerOf [("a", 5)])).1
    [twinA] twinA rfl rfl (by decide) (by decide) rfl

/-- C8: when the resolved target is not running and its label
`dockershocker.enabled` is absent or differs from `"true"`, `traefikMiddleware`
calls `ContainerStart` for no container, sets the ledger entry of the target's
id to the current time, changes no other entry and answers 303. -/
theorem traefikMiddleware_unmanaged_stopped (lv : LoopVar) (containers : List Container)
    (startSucceeds : String → Bool) (now : Int) (host : String) (l : Ledger)
    (target : Container)
    (htarget : findTarget lv containers host = some target)
    (_hstate : target.State ≠ "running")
    (hunmarked : target.Labels autoShutdownLabel ≠ some "true") :
    (traefikMiddleware lv (some containers) startSucceeds now host l).startRequests = [] ∧
    (traefikMiddleware lv (some containers) startSucceeds now host l).lastAccessed target.ID =
      some now ∧
    (∀ id, id ≠ target.ID →
      (traefikMiddleware lv (some containers) startSucceeds now host l).lastAccessed id =
        l id) ∧
    (traefikMiddleware lv (some containers) startSucceeds now host l).status = 303 := by
  have hm := autoShutdownEnabled_eq_false target hunmarked
  simp only [traefikMiddleware, htarget, hm, Bool.false_eq_true, and_false, if_false,
    Ledger.set, if_true, and_true, true_and]
  intro id hid
  rw [if_neg hid]

/-- C8 (witness): the stopped container `m` has no marker; a request for its
alias starts nothing, records the access and redirects. -/
theorem traefikMiddleware_unmanaged_stopped_witness :
    (traefikMiddleware LoopVar.shared (some [twinA, unmanagedStopped]) (fun _ => true)
        sampleNow "m.local" (ledgerOf [("a", 5)])).startRequests = [] ∧
    (traefikMiddleware LoopVar.shared (some [twinA, unmanagedStopped]) (fun _ => true)
        sampleNow "m.local" (ledgerOf [("a", 5)])).lastAccessed "m" = some sampleNow ∧
    (traefikMiddleware LoopVar.shared (some [twinA, unmanagedStopped]) (fun _ => true)
        sampleNow "m.local" (ledgerOf [("a", 5)])).lastAccessed "a" = some 5 ∧
    (traefikMiddleware LoopVar.shared (some [twinA, unmanagedStopped]) (fun _ => true)
        sampleNow "m.local" (ledgerOf [("a", 5)])).status = 303 :=
  have h := traefikMiddleware_unmanaged_stopped LoopVar.shared [twinA, unmanagedStopped]
    (fun _ => true) sampleNow "m.local" (ledgerOf [("a", 5)]) unmanagedStopped rfl
    (by decide) (by decide)
  ⟨h.1, h.2.1, (h.2.2.1 "a" (by decide)).trans (by decide), h.2.2.2⟩

end DockerShocker
